import Mathlib

/-!
# Verification of the overlord consensus core

This file gives a shallow embedding, in Lean 4, of the consensus core of the
overlord repository, together with theorems settling the specification claims.

Two generations of the state machine coexist in the source:

* `OldSmr` embeds the standalone state machine of src/src/smr/state_machine.rs
  with its types from src/src/smr/smr_types.rs.  Channels are embedded by
  returning the list of thrown events (channel sends always succeed);
  logging and tracing calls are dropped; the error strings carried by
  `ConsensusError` are dropped (only the constructor is kept).
* `Smr` embeds the integrated SMR driver of src/src/smr.rs.  The driver's
  collaborators that are not part of the provided sources (crate::types,
  crate::cabinet, crate::auth, crate::state) are modelled from the
  specification, each marked by a doc comment starting with
  "Modelled from the spec:".  Awaited side effects (transmit, broadcast,
  WAL writes, timers, fetch and execution dispatch) are embedded as an
  ordered list of `Action` values produced by each handler.

Machine integers (u64, u32) are embedded as `Nat` with an explicit
`% 2 ^ 64` (resp. `% 2 ^ 32`) exactly where the Rust code can wrap or
truncate.  Time is embedded in whole milliseconds.
-/

/-- Bytes `Hash` (bytes::Bytes in the source): an opaque byte string,
embedded as a list of byte values.  `Hash::new()` is the empty list and
`Hash::is_empty` is `List.isEmpty`. -/
abbrev Hash : Type := List Nat

namespace OldSmr

/-- smr_types.rs `Step`: the four steps of the standalone state machine,
ordered by declaration (Rust derives `PartialOrd`/`Ord`). -/
inductive Step where
  | Propose
  | Prevote
  | Precommit
  | Commit
deriving DecidableEq

/-- smr_types.rs `impl Into<u8> for Step`. -/
def Step.toU8 : Step → Nat
  | .Propose => 0
  | .Prevote => 1
  | .Precommit => 2
  | .Commit => 3

/-- The derived Rust `Ord` on `Step` compares declaration order. -/
def Step.ltb (a b : Step) : Bool := a.toU8 < b.toU8

/-- smr_types.rs `Lock`: a PoLC lock, a round together with a block hash. -/
structure Lock where
  round : Nat
  hash : Hash
deriving DecidableEq

/-- smr_types.rs `TriggerSource`. -/
inductive TriggerSource where
  | State
  | Timer
deriving DecidableEq

/-- smr_types.rs `SMRStatus` as used by state_machine.rs `handle_new_height`
(the new configuration payload is opaque to the state machine). -/
structure SMRStatus where
  height : Nat
  new_interval : Option Nat
  new_config : Option Unit
deriving DecidableEq

/-- smr_types.rs `SMREvent` as constructed by state_machine.rs. -/
inductive SMREvent where
  | NewRoundInfo (height round : Nat) (lock_round : Option Nat)
      (lock_proposal : Option Hash) (new_interval : Option Nat)
      (new_config : Option Unit)
  | PrevoteVote (height round : Nat) (block_hash : Hash) (lock_round : Option Nat)
  | PrecommitVote (height round : Nat) (block_hash : Hash) (lock_round : Option Nat)
  | Commit (hash : Hash)
  | Stop
deriving DecidableEq

/-- error.rs `ConsensusError` restricted to the constructors thrown by
state_machine.rs; the message strings are dropped. -/
inductive ConsensusError where
  | TriggerSMRErr
  | Other
  | ProposalErr
  | PrevoteErr
  | PrecommitErr
  | CorrectnessErr
  | SelfCheckErr
  | ThrowEventErr
deriving DecidableEq

/-- state_machine.rs `StateMachine`, without the channel endpoints (events are
returned, triggers are passed as arguments). -/
structure StateMachine where
  height : Nat
  round : Nat
  step : Step
  block_hash : Hash
  lock : Option Lock
deriving DecidableEq

/-- Result of a handler: the updated machine plus the events thrown, or the
error returned. -/
abbrev SMResult := Except ConsensusError (StateMachine × List SMREvent)

/-- state_machine.rs `set_proposal`. -/
def StateMachine.set_proposal (s : StateMachine) (proposal_hash : Hash) : StateMachine :=
  { s with block_hash := proposal_hash }

/-- state_machine.rs `remove_polc`. -/
def StateMachine.remove_polc (s : StateMachine) : StateMachine :=
  { s with lock := none }

/-- state_machine.rs `update_polc`. -/
def StateMachine.update_polc (s : StateMachine) (hash : Hash) (round : Nat) : StateMachine :=
  let s := s.set_proposal hash
  if hash.isEmpty then s.remove_polc else { s with lock := some ⟨round, hash⟩ }

/-- state_machine.rs `goto_step`. -/
def StateMachine.goto_step (s : StateMachine) (step : Step) : StateMachine :=
  { s with step := step }

/-- state_machine.rs `goto_next_round`: keep the lock, advance the round. -/
def StateMachine.goto_next_round (s : StateMachine) : StateMachine :=
  ({ s with round := s.round + 1 }).goto_step .Propose

/-- state_machine.rs `goto_new_height`: clear everything for the new height. -/
def StateMachine.goto_new_height (s : StateMachine) (height : Nat) : StateMachine :=
  { (({ s with height := height, round := 0 }).goto_step .Propose) with
    block_hash := ([] : List Nat), lock := none }

/-- state_machine.rs `check`: the three self checks run before processing. -/
def StateMachine.check (s : StateMachine) : Except ConsensusError Unit :=
  if s.height == 0 && s.lock.isSome &&
      (match s.lock with | some l => decide (l.hash ≠ s.block_hash) | none => false) then
    .error .SelfCheckErr
  else if Step.ltb s.step .Precommit && s.round == 0 && s.lock.isSome then
    .error .SelfCheckErr
  else if s.step == .Precommit && Bool.xor s.block_hash.isEmpty s.lock.isNone then
    .error .SelfCheckErr
  else
    .ok ()

/-- state_machine.rs `check_polc`: on a state-sourced precommit QC, require the
QC hash to match the lock hash, then move the lock round and the machine round
to the QC round. -/
def StateMachine.check_polc (s : StateMachine) (hash : Hash) (round : Nat) :
    Except ConsensusError StateMachine :=
  match s.lock with
  | some lock =>
      if lock.hash ≠ hash then .error .CorrectnessErr
      else .ok { s with lock := some { lock with round := round }, round := round }
  | none => .ok { s with lock := some ⟨round, hash⟩, round := round }

/-- state_machine.rs `handle_new_height`. -/
def StateMachine.handle_new_height (s : StateMachine) (status : SMRStatus)
    (source : TriggerSource) : SMResult :=
  if source ≠ .State then .error .Other
  else if status.height ≤ s.height then .error .Other
  else
    match s.check with
    | .error e => .error e
    | .ok _ =>
        let s₁ := s.goto_new_height status.height
        .ok (s₁, [.NewRoundInfo s₁.height 0 none none status.new_interval status.new_config])

/-- state_machine.rs `handle_proposal`. -/
def StateMachine.handle_proposal (s : StateMachine) (proposal_hash : Hash)
    (lock_round : Option Nat) (source : TriggerSource) (height : Nat) : SMResult :=
  if s.height ≠ height then .ok (s, [])
  else if Step.ltb .Propose s.step then .ok (s, [])
  else if source = .Timer then
    let round := s.lock.map (·.round)
    .ok (s.goto_step .Prevote, [.PrevoteVote s.height s.round ([] : List Nat) round])
  else if proposal_hash.isEmpty then .error .ProposalErr
  else
    match s.check with
    | .error e => .error e
    | .ok _ =>
        let step₁ : Except ConsensusError StateMachine :=
          match lock_round with
          | some lr =>
              match s.lock with
              | some lock =>
                  if lr > lock.round then .ok ((s.remove_polc).set_proposal proposal_hash)
                  else if lr = lock.round ∧ proposal_hash ≠ s.block_hash then
                    .error .CorrectnessErr
                  else .ok s
              | none => .ok (s.set_proposal proposal_hash)
          | none => if s.lock.isNone then .ok (s.set_proposal proposal_hash) else .ok s
        match step₁ with
        | .error e => .error e
        | .ok s₁ =>
            let round := s₁.lock.map (·.round)
            .ok (s₁.goto_step .Prevote,
                 [.PrevoteVote s₁.height s₁.round s₁.block_hash round])

/-- state_machine.rs `handle_prevote`. -/
def StateMachine.handle_prevote (s : StateMachine) (prevote_hash : Hash)
    (prevote_round : Option Nat) (source : TriggerSource) (height : Nat) : SMResult :=
  match prevote_round with
  | none => .error .PrevoteErr
  | some vote_round =>
      if s.height ≠ height then .ok (s, [])
      else if Step.ltb .Prevote s.step then .ok (s, [])
      else if source = .Timer then
        match s.lock with
        | some lock =>
            .ok (s.goto_step .Precommit,
                 [.PrecommitVote s.height s.round ([] : List Nat) (some lock.round)])
        | none =>
            let s₁ := { s with block_hash := ([] : List Nat) }
            .ok (s₁.goto_step .Precommit,
                 [.PrecommitVote s₁.height s₁.round ([] : List Nat) none])
      else if prevote_hash.isEmpty then .error .PrevoteErr
      else
        match s.check with
        | .error e => .error e
        | .ok _ =>
            let s₁ :=
              match s.lock with
              | some lock =>
                  if vote_round > lock.round then s.update_polc prevote_hash vote_round
                  else s
              | none => s.update_polc prevote_hash vote_round
            let s₂ := if s₁.round > vote_round then { s₁ with round := vote_round } else s₁
            let round := s₂.lock.map (·.round)
            .ok (s₂.goto_step .Precommit,
                 [.PrecommitVote s₂.height s₂.round s₂.block_hash round])

/-- state_machine.rs `handle_precommit`.  Note that the missing-round error
reuses the `PrevoteErr` constructor, as in the source. -/
def StateMachine.handle_precommit (s : StateMachine) (precommit_hash : Hash)
    (precommit_round : Option Nat) (source : TriggerSource) (height : Nat) : SMResult :=
  match precommit_round with
  | none => .error .PrevoteErr
  | some pr =>
      if s.height ≠ height then .ok (s, [])
      else if Step.ltb .Precommit s.step then .ok (s, [])
      else
        let lock_round := s.lock.map (·.round)
        let lock_proposal := s.lock.map (·.hash)
        if source = .Timer then
          .ok (s.goto_next_round,
               [.NewRoundInfo s.height (s.round + 1) lock_round lock_proposal none none])
        else if precommit_hash.isEmpty then .error .PrecommitErr
        else
          match s.check with
          | .error e => .error e
          | .ok _ =>
              match s.check_polc precommit_hash pr with
              | .error e => .error e
              | .ok s₁ => .ok (s₁.goto_step .Commit, [.Commit precommit_hash])

/-- The consensus triggers dispatched by state_machine.rs `poll_next`
(the WAL-recovery trigger `WalInfo`, which reinstalls a persisted snapshot
wholesale, is not a within-height consensus transition and is out of scope
here). -/
inductive SMTrigger where
  | NewHeight (status : SMRStatus) (source : TriggerSource)
  | Proposal (hash : Hash) (round : Option Nat) (source : TriggerSource) (height : Nat)
  | PrevoteQC (hash : Hash) (round : Option Nat) (source : TriggerSource) (height : Nat)
  | PrecommitQC (hash : Hash) (round : Option Nat) (source : TriggerSource) (height : Nat)
deriving DecidableEq

/-- state_machine.rs `poll_next` dispatch on the trigger type. -/
def StateMachine.handle_trigger (s : StateMachine) : SMTrigger → SMResult
  | .NewHeight status source => s.handle_new_height status source
  | .Proposal hash round source height => s.handle_proposal hash round source height
  | .PrevoteQC hash round source height => s.handle_prevote hash round source height
  | .PrecommitQC hash round source height => s.handle_precommit hash round source height

end OldSmr

namespace Smr

/-- smr.rs `POWER_CAP`. -/
def POWER_CAP : Nat := 5

/-- smr.rs `TIME_DIVISOR`. -/
def TIME_DIVISOR : Nat := 10

/-- smr.rs `HEIGHT_WINDOW`. -/
def HEIGHT_WINDOW : Nat := 5

/-- smr.rs `ROUND_WINDOW`. -/
def ROUND_WINDOW : Nat := 5

/-- Wrapping bound of u64. -/
def U64 : Nat := 2 ^ 64

/-- Truncation bound of `as u32`. -/
def U32 : Nat := 2 ^ 32

/-- Validator address (crate::types, modelled from the spec: an opaque
identifier unique in the validator set). -/
abbrev Address : Type := Nat

/-- Modelled from the spec: crate::types `Vote` (height, round, block hash);
the vote kind is carried by the wrapping type. -/
structure Vote where
  height : Nat
  round : Nat
  block_hash : Hash
deriving DecidableEq

/-- Modelled from the spec: crate::types `SignedPreVote` (vote, voter address
and the voter weight used for cumulative counting; the signature itself is
out of scope). -/
structure SignedPreVote where
  vote : Vote
  voter : Address
  vote_weight : Nat
deriving DecidableEq

/-- Modelled from the spec: crate::types `SignedPreCommit`. -/
structure SignedPreCommit where
  vote : Vote
  voter : Address
  vote_weight : Nat
deriving DecidableEq

/-- Modelled from the spec: crate::types `PreVoteQC` (the aggregated signature
and voter bitmap are out of scope; the certified vote is kept). -/
structure PreVoteQC where
  vote : Vote
deriving DecidableEq

/-- Modelled from the spec: crate::types `PreCommitQC`. -/
structure PreCommitQC where
  vote : Vote
deriving DecidableEq

/-- Modelled from the spec: crate::types `Choke` (height, round). -/
structure Choke where
  height : Nat
  round : Nat
deriving DecidableEq

/-- Modelled from the spec: crate::types `ChokeQC`. -/
structure ChokeQC where
  choke : Choke
deriving DecidableEq

/-- Modelled from the spec: crate::types `UpdateFrom`, the strongest QC known
to a choking replica. -/
inductive UpdateFrom where
  | PreVoteQC (qc : PreVoteQC)
  | PreCommitQC (qc : PreCommitQC)
  | ChokeQC (qc : ChokeQC)
deriving DecidableEq

/-- Modelled from the spec: crate::types `SignedChoke`; the field `from` of
the source is named `update_from` (`from` is reserved in Lean). -/
structure SignedChoke where
  choke : Choke
  update_from : UpdateFrom
  voter : Address
  vote_weight : Nat
deriving DecidableEq

/-- Modelled from the spec: the `Blk` trait object: a block carrying its
height, exec height, previous hash and its own hash (the proof it embeds is
verified through an oracle). -/
structure Block where
  height : Nat
  exec_height : Nat
  pre_hash : Hash
  block_hash : Hash
deriving DecidableEq

/-- Modelled from the spec: crate::types `Proposal`. -/
structure Proposal where
  height : Nat
  round : Nat
  block : Block
  block_hash : Hash
  lock : Option PreVoteQC
  proposer : Address
deriving DecidableEq

/-- crate::types `Proposal::as_vote`, modelled from the spec: the pre-vote a
replica casts for the proposal. -/
def Proposal.as_vote (p : Proposal) : Vote :=
  ⟨p.height, p.round, p.block_hash⟩

/-- Modelled from the spec: crate::types `SignedProposal` (signature out of
scope). -/
structure SignedProposal where
  proposal : Proposal
deriving DecidableEq

/-- Modelled from the spec: crate::types `FetchedFullBlock`. -/
structure FetchedFullBlock where
  height : Nat
  block_hash : Hash
  full_block : List Nat
deriving DecidableEq

/-- cabinet.rs `Capsule`, modelled from the spec: the sum of all inbound
consensus message kinds. -/
inductive Capsule where
  | SignedProposal (sp : SignedProposal)
  | SignedPreVote (sv : SignedPreVote)
  | SignedPreCommit (sv : SignedPreCommit)
  | SignedChoke (sc : SignedChoke)
  | PreVoteQC (qc : PreVoteQC)
  | PreCommitQC (qc : PreCommitQC)
  | ChokeQC (qc : ChokeQC)
deriving DecidableEq

/-- crate::state `Step` of the integrated driver (state/process is the legacy
module; this Step is the five-step one of the spec §4.3). -/
inductive Step where
  | Propose
  | PreVote
  | PreCommit
  | Brake
  | Commit
deriving DecidableEq

/-- crate::state `Stage`: the (height, round, step) triple. -/
structure Stage where
  height : Nat
  round : Nat
  step : Step
deriving DecidableEq

/-- Modelled from the spec: crate::state `StateInfo` (§4.3): the stage, the
PoLC lock (a PreVoteQC), the adopted block and the commit certificate. -/
structure StateInfo where
  stage : Stage
  lock : Option PreVoteQC
  block : Option Block
  pre_commit_qc : Option PreCommitQC
deriving DecidableEq

/-- crate::types `TimeConfig`.  The ratio fields `propose_ratio`,
`pre_vote_ratio`, `pre_commit_ratio` and `brake_ratio` of the source are
named `ratio_propose`, `ratio_pre_vote`, `ratio_pre_commit`, `ratio_brake`
here. -/
structure TimeConfig where
  interval : Nat
  ratio_propose : Nat
  ratio_pre_vote : Nat
  ratio_pre_commit : Nat
  ratio_brake : Nat
deriving DecidableEq

/-- smr.rs `apply_power`: cap the exponent at `POWER_CAP` and scale the
timeout by the resulting power of two. -/
def apply_power (timeout : Nat) (power : Nat) : Nat :=
  let power := if power > POWER_CAP then POWER_CAP else power
  timeout * 2 ^ power

/-- smr.rs `EventAgent::compute_timeout`, in whole milliseconds.  `cost_ms`
stands for `Instant::now() - self.start_time`.  The u64 products wrap modulo
`U64` and `stage.round as u32` truncates modulo `U32`, as in Rust release
builds.  The `Step::Commit` arm is the literal
`cost.checked_sub(Duration::from_millis(config.interval))` of the source. -/
def compute_timeout (config : TimeConfig) (stage : Stage) (cost_ms : Nat) : Option Nat :=
  match stage.step with
  | .Propose =>
      some (apply_power (config.interval * config.ratio_propose % U64 / TIME_DIVISOR)
        (stage.round % U32))
  | .PreVote =>
      some (apply_power (config.interval * config.ratio_pre_vote % U64 / TIME_DIVISOR)
        (stage.round % U32))
  | .PreCommit =>
      some (apply_power (config.interval * config.ratio_pre_commit % U64 / TIME_DIVISOR)
        (stage.round % U32))
  | .Brake => some (config.interval * config.ratio_brake % U64 / TIME_DIVISOR)
  | .Commit => if config.interval ≤ cost_ms then some (cost_ms - config.interval) else none

/-- smr.rs `EventAgent::request_full_block`: spawn a fetch unless the hash is
already tracked.  The returned flag says whether a fetch task was spawned.
As in the source, the hash is never added to `fetch_set`. -/
def request_full_block (fetch_set : List Hash) (block : Block) : List Hash × Bool :=
  if block.block_hash ∈ fetch_set then (fetch_set, false) else (fetch_set, true)

/-- error.rs `OverlordError` restricted to the kinds raised along the driver
paths embedded here; `unreachable_slip` stands for the `expect` panics of the
source. -/
inductive Err where
  | debug_old
  | debug_high
  | net_much_high
  | net_fetch (hash : Hash)
  | byz_block
  | byz_proof
  | byz_qc
  | warn_block
  | byz_adapter_check_block
  | auth_verify_fail
  | auth_can_not_vote
  | state_rejected
  | aggregate_empty
  | unreachable_slip
deriving DecidableEq

/-- cabinet.rs `CumWeight`, modelled from the spec: the cumulative weight
record returned by an insert, carrying the vote round and, for votes, the
block hash (chokes carry none). -/
structure CumWeight where
  cum_weight : Nat
  round : Nat
  block_hash : Option Hash
deriving DecidableEq

/-- Modelled from the spec: cabinet.rs `Cabinet` (§4.2): the per-(height,
round) message store plus the fetched full blocks. -/
structure Cabinet where
  msgs : List (Nat × Nat × Capsule)
  full_blocks : List FetchedFullBlock
deriving DecidableEq

/-- The cumulative pre-vote weight stored for `(height, round, hash)`. -/
def Cabinet.pre_vote_weight (c : Cabinet) (h r : Nat) (hash : Hash) : Nat :=
  (c.msgs.map (fun m =>
    match m with
    | (h', r', .SignedPreVote sv) =>
        if h' = h ∧ r' = r ∧ sv.vote.block_hash = hash then sv.vote_weight else 0
    | _ => 0)).sum

/-- The cumulative pre-commit weight stored for `(height, round, hash)`. -/
def Cabinet.pre_commit_weight (c : Cabinet) (h r : Nat) (hash : Hash) : Nat :=
  (c.msgs.map (fun m =>
    match m with
    | (h', r', .SignedPreCommit sv) =>
        if h' = h ∧ r' = r ∧ sv.vote.block_hash = hash then sv.vote_weight else 0
    | _ => 0)).sum

/-- The cumulative choke weight stored for `(height, round)`. -/
def Cabinet.choke_weight (c : Cabinet) (h r : Nat) : Nat :=
  (c.msgs.map (fun m =>
    match m with
    | (h', r', .SignedChoke sc) => if h' = h ∧ r' = r then sc.vote_weight else 0
    | _ => 0)).sum

/-- Modelled from the spec: `Cabinet::insert` (§4.2) stores the capsule and,
for signed votes and chokes, returns the updated cumulative-weight record;
duplicate inserts are idempotent and return no record. -/
def Cabinet.insert (c : Cabinet) (h r : Nat) (capsule : Capsule) :
    Cabinet × Option CumWeight :=
  if (h, r, capsule) ∈ c.msgs then (c, none)
  else
    let c' : Cabinet := { c with msgs := (h, r, capsule) :: c.msgs }
    match capsule with
    | .SignedPreVote sv =>
        (c', some ⟨c'.pre_vote_weight h r sv.vote.block_hash, r, some sv.vote.block_hash⟩)
    | .SignedPreCommit sv =>
        (c', some ⟨c'.pre_commit_weight h r sv.vote.block_hash, r, some sv.vote.block_hash⟩)
    | .SignedChoke _ => (c', some ⟨c'.choke_weight h r, r, none⟩)
    | _ => (c', none)

/-- Modelled from the spec: `Cabinet::get_signed_pre_votes_by_hash` returns
the stored pre-votes for `(height, round, hash)`, none when there are none. -/
def Cabinet.get_signed_pre_votes_by_hash (c : Cabinet) (h r : Nat) (hash : Hash) :
    Option (List SignedPreVote) :=
  let votes := c.msgs.filterMap (fun m =>
    match m with
    | (h', r', .SignedPreVote sv) =>
        if h' = h ∧ r' = r ∧ sv.vote.block_hash = hash then some sv else none
    | _ => none)
  if votes.isEmpty then none else some votes

/-- Modelled from the spec: `Cabinet::get_signed_pre_commits_by_hash`. -/
def Cabinet.get_signed_pre_commits_by_hash (c : Cabinet) (h r : Nat) (hash : Hash) :
    Option (List SignedPreCommit) :=
  let votes := c.msgs.filterMap (fun m =>
    match m with
    | (h', r', .SignedPreCommit sv) =>
        if h' = h ∧ r' = r ∧ sv.vote.block_hash = hash then some sv else none
    | _ => none)
  if votes.isEmpty then none else some votes

/-- Modelled from the spec: `Cabinet::get_signed_chokes`. -/
def Cabinet.get_signed_chokes (c : Cabinet) (h r : Nat) : Option (List SignedChoke) :=
  let chokes := c.msgs.filterMap (fun m =>
    match m with
    | (h', r', .SignedChoke sc) => if h' = h ∧ r' = r then some sc else none
    | _ => none)
  if chokes.isEmpty then none else some chokes

/-- Modelled from the spec: `Cabinet::get_block` looks a block up by height
and hash among the stored proposals. -/
def Cabinet.get_block (c : Cabinet) (h : Nat) (hash : Hash) : Option Block :=
  (c.msgs.filterMap (fun m =>
    match m with
    | (_, _, .SignedProposal sp) =>
        if sp.proposal.height = h ∧ sp.proposal.block_hash = hash then
          some sp.proposal.block
        else none
    | _ => none)).head?

/-- Modelled from the spec: `Cabinet::get_full_block`. -/
def Cabinet.get_full_block (c : Cabinet) (h : Nat) (hash : Hash) :
    Option FetchedFullBlock :=
  c.full_blocks.find? (fun f => f.height == h && f.block_hash == hash)

/-- Modelled from the spec: `Cabinet::insert_full_block`. -/
def Cabinet.insert_full_block (c : Cabinet) (f : FetchedFullBlock) : Cabinet :=
  { c with full_blocks := f :: c.full_blocks }

/-- auth.rs `AuthCell`, modelled from the spec: only the total weight of the
validator set is needed here. -/
structure AuthCell where
  total_weight : Nat
deriving DecidableEq

/-- Modelled from the spec (§8.5): `beyond_majority(w) ⇔ 3·w > 2·total`. -/
def AuthCell.beyond_majority (cell : AuthCell) (cum_weight : Nat) : Bool :=
  3 * cum_weight > 2 * cell.total_weight

/-- Modelled from the spec: auth.rs `AuthManage`.  Signature and QC
verification are cryptographic and out of scope (§1); their outcomes are
oracle fields, as are the leader schedule and vote eligibility. -/
structure AuthManage where
  address : Address
  my_weight : Nat
  current_auth : AuthCell
  verify_signed_proposal : SignedProposal → Bool
  verify_signed_pre_vote : SignedPreVote → Bool
  verify_signed_pre_commit : SignedPreCommit → Bool
  verify_signed_choke : SignedChoke → Bool
  verify_pre_vote_qc : PreVoteQC → Bool
  verify_pre_commit_qc : PreCommitQC → Bool
  verify_choke_qc : ChokeQC → Bool
  verify_proof : Bool
  can_i_vote : Bool
  get_leader : Nat → Nat → Address

/-- Modelled from the spec: `AuthManage::sign_pre_vote`. -/
def AuthManage.sign_pre_vote (a : AuthManage) (vote : Vote) : SignedPreVote :=
  ⟨vote, a.address, a.my_weight⟩

/-- Modelled from the spec: `AuthManage::sign_pre_commit`. -/
def AuthManage.sign_pre_commit (a : AuthManage) (vote : Vote) : SignedPreCommit :=
  ⟨vote, a.address, a.my_weight⟩

/-- Modelled from the spec: `AuthManage::aggregate_pre_votes` produces the QC
certifying the common vote (aggregation with no votes is a logic bug, §4.1). -/
def aggregate_pre_votes (votes : List SignedPreVote) : Except Err PreVoteQC :=
  match votes with
  | [] => .error .aggregate_empty
  | v :: _ => .ok ⟨v.vote⟩

/-- Modelled from the spec: `AuthManage::aggregate_pre_commits`. -/
def aggregate_pre_commits (votes : List SignedPreCommit) : Except Err PreCommitQC :=
  match votes with
  | [] => .error .aggregate_empty
  | v :: _ => .ok ⟨v.vote⟩

/-- Modelled from the spec: `AuthManage::aggregate_chokes`. -/
def aggregate_chokes (chokes : List SignedChoke) : Except Err ChokeQC :=
  match chokes with
  | [] => .error .aggregate_empty
  | c :: _ => .ok ⟨c.choke⟩

/-- crate::state `ProposePrepare`, modelled from the spec: only the fields
read on the embedded paths (`pre_hash` and `exec_height`). -/
structure Prepare where
  pre_hash : Hash
  exec_height : Nat
deriving DecidableEq

/-- The outbound message payloads sent on the embedded paths. -/
inductive Msg where
  | SignedProposal (sp : SignedProposal)
  | SignedPreVote (sv : SignedPreVote)
  | SignedPreCommit (sv : SignedPreCommit)
  | PreVoteQC (qc : PreVoteQC)
  | PreCommitQC (qc : PreCommitQC)
deriving DecidableEq

/-- The externally visible effects of a driver handler, in program order.
`save_wal` is `StateInfo::save_wal` (it records the persisted snapshot);
`call_handle_commit` and `call_new_round` mark the driver's calls into
`handle_commit` and `new_round`, whose bodies are outside the embedded
fragment. -/
inductive Action where
  | save_wal (st : StateInfo)
  | save_full_block (f : FetchedFullBlock)
  | broadcast (m : Msg)
  | transmit (dst : Address) (m : Msg)
  | set_timeout (stage : Stage)
  | request_full_block (hash : Hash)
  | call_handle_commit
  | call_new_round
deriving DecidableEq

/-- smr.rs `SMR`: the driver state.  `elapsed_ms` stands for
`Instant::now() - agent.start_time`, `adapter_check_block` for the adapter's
`check_block` verdict. -/
structure SMR where
  state : StateInfo
  prepare : Prepare
  cabinet : Cabinet
  auth : AuthManage
  time_config : TimeConfig
  elapsed_ms : Nat
  fetch_set : List Hash
  adapter_check_block : Block → Bool

/-- Result of a driver handler: the updated driver, the effects emitted (in
order, including those emitted before an error abort), and the returned
`OverlordResult`. -/
structure HRes where
  smr : SMR
  acts : List Action
  res : Except Err Unit

/-- smr.rs `SMR::filter_msg` (lines 514-536): height/round admission control;
a too-high message inside the window is buffered in the Cabinet. -/
def SMR.filter_msg (s : SMR) (height round : Nat) (capsule : Capsule) :
    SMR × Except Err Unit :=
  let my_height := s.state.stage.height
  let my_round := s.state.stage.round
  if height < my_height then (s, .error .debug_old)
  else if height = my_height ∧ round < my_round then
    match capsule with
    | .SignedProposal _ => (s, .ok ())
    | _ => (s, .error .debug_old)
  else if height > my_height + HEIGHT_WINDOW ∨ round > my_round + ROUND_WINDOW then
    (s, .error .net_much_high)
  else if height > my_height then
    let (cab, _) := s.cabinet.insert height round capsule
    ({ s with cabinet := cab }, .error .debug_high)
  else (s, .ok ())

/-- Modelled from the spec: `StateInfo::handle_signed_proposal` (§4.3 Propose
row): a proposal matching the current (height, round) whose lock, if the
replica holds one, is at a round at least the replica's lock round, is
adopted; the step moves to PreVote. -/
def StateInfo.handle_signed_proposal (st : StateInfo) (sp : SignedProposal) :
    Except Err StateInfo :=
  if sp.proposal.height = st.stage.height ∧ sp.proposal.round = st.stage.round ∧
      (match st.lock, sp.proposal.lock with
       | some my_lock, some p_lock => decide (p_lock.vote.round ≥ my_lock.vote.round)
       | some _, none => false
       | none, _ => true : Bool) = true then
    .ok { st with
          stage := { st.stage with step := .PreVote },
          block := some sp.proposal.block,
          lock := match sp.proposal.lock with | some l => some l | none => st.lock }
  else .error .state_rejected

/-- Modelled from the spec: `StateInfo::handle_pre_vote_qc` (§4.3 PreVote
row): a verified PreVoteQC of the current height at a round at least the
current one installs the lock and the block and moves to PreCommit. -/
def StateInfo.handle_pre_vote_qc (st : StateInfo) (qc : PreVoteQC) (block : Block) :
    Except Err StateInfo :=
  if qc.vote.height = st.stage.height ∧ qc.vote.round ≥ st.stage.round ∧
      st.stage.step ≠ .Commit then
    .ok { st with
          stage := ⟨st.stage.height, qc.vote.round, .PreCommit⟩,
          lock := some qc,
          block := some block }
  else .error .state_rejected

/-- Modelled from the spec: `StateInfo::handle_pre_commit_qc` (§4.3 PreCommit
row): a verified PreCommitQC of the current height at a round at least the
current one is recorded and the step moves to Commit. -/
def StateInfo.handle_pre_commit_qc (st : StateInfo) (qc : PreCommitQC) (block : Block) :
    Except Err StateInfo :=
  if qc.vote.height = st.stage.height ∧ qc.vote.round ≥ st.stage.round ∧
      st.stage.step ≠ .Commit then
    .ok { st with
          stage := ⟨st.stage.height, qc.vote.round, .Commit⟩,
          pre_commit_qc := some qc,
          block := some block }
  else .error .state_rejected

/-- Modelled from the spec: `StateInfo::handle_choke_qc` (§4.3 choke row): a
ChokeQC of the current height at a round at least the current one starts
round `r + 1` in step Propose, keeping the lock. -/
def StateInfo.handle_choke_qc (st : StateInfo) (qc : ChokeQC) : Except Err StateInfo :=
  if qc.choke.height = st.stage.height ∧ qc.choke.round ≥ st.stage.round ∧
      st.stage.step ≠ .Commit then
    .ok { st with stage := ⟨st.stage.height, qc.choke.round + 1, .Propose⟩ }
  else .error .state_rejected

/-- smr.rs `EventAgent::set_timeout`: arm a timer when `compute_timeout`
yields a duration; the emitted action records the armed stage. -/
def SMR.set_timeout_acts (s : SMR) (stage : Stage) : List Action :=
  match compute_timeout s.time_config stage s.elapsed_ms with
  | some _ => [.set_timeout stage]
  | none => []

/-- smr.rs `SMR::check_proposal` (lines 436-451). -/
def SMR.check_proposal (s : SMR) (p : Proposal) : Except Err Unit :=
  if p.height ≠ p.block.height ∨ p.block_hash ≠ p.block.block_hash then .error .byz_block
  else if s.prepare.pre_hash ≠ p.block.pre_hash then .error .byz_block
  else if ¬ s.auth.verify_proof then .error .byz_proof
  else
    match p.lock with
    | some lock => if s.auth.verify_pre_vote_qc lock then .ok () else .error .byz_qc
    | none => .ok ()

/-- smr.rs `SMR::check_block` (lines 453-466): too-far-ahead exec heights are
warned away, then the adapter checks the block. -/
def SMR.check_block (s : SMR) (block : Block) : Except Err Unit :=
  if s.prepare.exec_height < block.exec_height then .error .warn_block
  else if s.adapter_check_block block then .ok () else .error .byz_adapter_check_block

/-- smr.rs `SMR::handle_signed_proposal` (lines 207-231): filter, validate,
store, check, request the full block, transition, set the timeout, persist,
then transmit the pre-vote to the proposer. -/
def SMR.handle_signed_proposal (s : SMR) (sp : SignedProposal) : HRes :=
  let msg_h := sp.proposal.height
  let msg_r := sp.proposal.round
  match s.filter_msg msg_h msg_r (.SignedProposal sp) with
  | (s, .error e) => ⟨s, [], .error e⟩
  | (s, .ok _) =>
  match s.check_proposal sp.proposal with
  | .error e => ⟨s, [], .error e⟩
  | .ok _ =>
  if s.auth.verify_signed_proposal sp then
    let (cab, _) := s.cabinet.insert msg_h msg_r (.SignedProposal sp)
    let s := { s with cabinet := cab }
    match s.check_block sp.proposal.block with
    | .error e => ⟨s, [], .error e⟩
    | .ok _ =>
    let (fs, spawned) := request_full_block s.fetch_set sp.proposal.block
    let s := { s with fetch_set := fs }
    let acts₀ := if spawned then [Action.request_full_block sp.proposal.block.block_hash]
                 else []
    if sp.proposal.lock.isNone ∧ msg_r > s.state.stage.round then
      ⟨s, acts₀, .error .debug_high⟩
    else
      match s.state.handle_signed_proposal sp with
      | .error e => ⟨s, acts₀, .error e⟩
      | .ok st₁ =>
          let s := { s with state := st₁ }
          let acts₁ := acts₀ ++ s.set_timeout_acts st₁.stage ++ [Action.save_wal st₁]
          if s.auth.can_i_vote then
            let vote := s.auth.sign_pre_vote sp.proposal.as_vote
            ⟨s, acts₁ ++ [Action.transmit sp.proposal.proposer (.SignedPreVote vote)],
             .ok ()⟩
          else ⟨s, acts₁, .error .auth_can_not_vote⟩
  else ⟨s, [], .error .auth_verify_fail⟩

/-- smr.rs `SMR::handle_pre_vote_qc` (lines 310-336): filter, verify, store;
when the full block is locally available, transition, set the timeout,
persist, then transmit the pre-commit to the leader. -/
def SMR.handle_pre_vote_qc (s : SMR) (qc : PreVoteQC) : HRes :=
  let msg_h := qc.vote.height
  let msg_r := qc.vote.round
  match s.filter_msg msg_h msg_r (.PreVoteQC qc) with
  | (s, .error e) => ⟨s, [], .error e⟩
  | (s, .ok _) =>
  if s.auth.verify_pre_vote_qc qc then
    let (cab, _) := s.cabinet.insert msg_h msg_r (.PreVoteQC qc)
    let s := { s with cabinet := cab }
    match s.cabinet.get_full_block msg_h qc.vote.block_hash with
    | none => ⟨s, [], .ok ()⟩
    | some _ =>
    match s.cabinet.get_block msg_h qc.vote.block_hash with
    | none => ⟨s, [], .error .unreachable_slip⟩
    | some block =>
    match s.state.handle_pre_vote_qc qc block with
    | .error e => ⟨s, [], .error e⟩
    | .ok st₁ =>
        let s := { s with state := st₁ }
        let acts₁ := s.set_timeout_acts st₁.stage ++ [Action.save_wal st₁]
        if s.auth.can_i_vote then
          let vote := s.auth.sign_pre_commit qc.vote
          let leader := s.auth.get_leader msg_h msg_r
          ⟨s, acts₁ ++ [Action.transmit leader (.SignedPreCommit vote)], .ok ()⟩
        else ⟨s, acts₁, .error .auth_can_not_vote⟩
  else ⟨s, [], .error .auth_verify_fail⟩

/-- smr.rs `SMR::handle_pre_commit_qc` (lines 338-359): filter, verify,
store; when the full block is locally available, transition, persist, then
run the commit (marked by `call_handle_commit`). -/
def SMR.handle_pre_commit_qc (s : SMR) (qc : PreCommitQC) : HRes :=
  let msg_h := qc.vote.height
  let msg_r := qc.vote.round
  match s.filter_msg msg_h msg_r (.PreCommitQC qc) with
  | (s, .error e) => ⟨s, [], .error e⟩
  | (s, .ok _) =>
  if s.auth.verify_pre_commit_qc qc then
    let (cab, _) := s.cabinet.insert msg_h msg_r (.PreCommitQC qc)
    let s := { s with cabinet := cab }
    match s.cabinet.get_full_block msg_h qc.vote.block_hash with
    | none => ⟨s, [], .ok ()⟩
    | some _ =>
    match s.cabinet.get_block msg_h qc.vote.block_hash with
    | none => ⟨s, [], .error .unreachable_slip⟩
    | some block =>
    match s.state.handle_pre_commit_qc qc block with
    | .error e => ⟨s, [], .error e⟩
    | .ok st₁ =>
        let s := { s with state := st₁ }
        ⟨s, [Action.save_wal st₁, Action.call_handle_commit], .ok ()⟩
  else ⟨s, [], .error .auth_verify_fail⟩

/-- smr.rs `SMR::handle_choke_qc` (lines 361-370): filter, verify,
transition, persist, then start the new round (marked by `call_new_round`). -/
def SMR.handle_choke_qc (s : SMR) (qc : ChokeQC) : HRes :=
  let msg_h := qc.choke.height
  let msg_r := qc.choke.round
  match s.filter_msg msg_h msg_r (.ChokeQC qc) with
  | (s, .error e) => ⟨s, [], .error e⟩
  | (s, .ok _) =>
  if s.auth.verify_choke_qc qc then
    match s.state.handle_choke_qc qc with
    | .error e => ⟨s, [], .error e⟩
    | .ok st₁ =>
        let s := { s with state := st₁ }
        ⟨s, [Action.save_wal st₁, Action.call_new_round], .ok ()⟩
  else ⟨s, [], .error .auth_verify_fail⟩

/-- smr.rs `SMR::handle_signed_pre_vote` (lines 233-257): filter, verify,
insert; when the cumulative weight passes the majority, aggregate the stored
votes into a PreVoteQC, broadcast it, then feed it back through
`handle_pre_vote_qc`. -/
def SMR.handle_signed_pre_vote (s : SMR) (sv : SignedPreVote) : HRes :=
  let msg_h := sv.vote.height
  let msg_r := sv.vote.round
  match s.filter_msg msg_h msg_r (.SignedPreVote sv) with
  | (s, .error e) => ⟨s, [], .error e⟩
  | (s, .ok _) =>
  if s.auth.verify_signed_pre_vote sv then
    match s.cabinet.insert msg_h msg_r (.SignedPreVote sv) with
    | (cab, none) => ⟨{ s with cabinet := cab }, [], .ok ()⟩
    | (cab, some sum_w) =>
      let s := { s with cabinet := cab }
      if s.auth.current_auth.beyond_majority sum_w.cum_weight then
        match sum_w.block_hash with
        | none => ⟨s, [], .error .unreachable_slip⟩
        | some hash =>
        match s.cabinet.get_signed_pre_votes_by_hash msg_h sum_w.round hash with
        | none => ⟨s, [], .error .unreachable_slip⟩
        | some votes =>
        match aggregate_pre_votes votes with
        | .error e => ⟨s, [], .error e⟩
        | .ok qc =>
            let inner := s.handle_pre_vote_qc qc
            ⟨inner.smr, .broadcast (.PreVoteQC qc) :: inner.acts, inner.res⟩
      else ⟨s, [], .ok ()⟩
  else ⟨s, [], .error .auth_verify_fail⟩

/-- smr.rs `SMR::handle_signed_pre_commit` (lines 259-283): as for pre-votes,
with a PreCommitQC broadcast and fed back through `handle_pre_commit_qc`. -/
def SMR.handle_signed_pre_commit (s : SMR) (sv : SignedPreCommit) : HRes :=
  let msg_h := sv.vote.height
  let msg_r := sv.vote.round
  match s.filter_msg msg_h msg_r (.SignedPreCommit sv) with
  | (s, .error e) => ⟨s, [], .error e⟩
  | (s, .ok _) =>
  if s.auth.verify_signed_pre_commit sv then
    match s.cabinet.insert msg_h msg_r (.SignedPreCommit sv) with
    | (cab, none) => ⟨{ s with cabinet := cab }, [], .ok ()⟩
    | (cab, some sum_w) =>
      let s := { s with cabinet := cab }
      if s.auth.current_auth.beyond_majority sum_w.cum_weight then
        match sum_w.block_hash with
        | none => ⟨s, [], .error .unreachable_slip⟩
        | some hash =>
        match s.cabinet.get_signed_pre_commits_by_hash msg_h sum_w.round hash with
        | none => ⟨s, [], .error .unreachable_slip⟩
        | some votes =>
        match aggregate_pre_commits votes with
        | .error e => ⟨s, [], .error e⟩
        | .ok qc =>
            let inner := s.handle_pre_commit_qc qc
            ⟨inner.smr, .broadcast (.PreCommitQC qc) :: inner.acts, inner.res⟩
      else ⟨s, [], .ok ()⟩
  else ⟨s, [], .error .auth_verify_fail⟩

/-- smr.rs `SMR::handle_signed_choke` (lines 285-308): filter, verify,
insert; past the majority the ChokeQC is aggregated and fed back through
`handle_choke_qc` (without being broadcast); below the majority the
`UpdateFrom` QC is processed instead. -/
def SMR.handle_signed_choke (s : SMR) (sc : SignedChoke) : HRes :=
  let msg_h := sc.choke.height
  let msg_r := sc.choke.round
  match s.filter_msg msg_h msg_r (.SignedChoke sc) with
  | (s, .error e) => ⟨s, [], .error e⟩
  | (s, .ok _) =>
  if s.auth.verify_signed_choke sc then
    match s.cabinet.insert msg_h msg_r (.SignedChoke sc) with
    | (cab, none) => ⟨{ s with cabinet := cab }, [], .ok ()⟩
    | (cab, some sum_w) =>
      let s := { s with cabinet := cab }
      if s.auth.current_auth.beyond_majority sum_w.cum_weight then
        match s.cabinet.get_signed_chokes msg_h sum_w.round with
        | none => ⟨s, [], .error .unreachable_slip⟩
        | some chokes =>
        match aggregate_chokes chokes with
        | .error e => ⟨s, [], .error e⟩
        | .ok qc => s.handle_choke_qc qc
      else
        match sc.update_from with
        | .PreVoteQC qc => s.handle_pre_vote_qc qc
        | .PreCommitQC qc => s.handle_pre_commit_qc qc
        | .ChokeQC qc => s.handle_choke_qc qc
  else ⟨s, [], .error .auth_verify_fail⟩

/-- smr.rs `SMR::handle_fetch` (lines 181-194) with
`EventAgent::handle_fetch` (lines 671-684) inlined: a failed fetch is
removed from `fetch_set`; a stale fetched block is dropped; otherwise the
full block is stored in the Cabinet and saved to the WAL.  The source leaves
the completion of a deferred step transition as a Todo. -/
def SMR.handle_fetch (s : SMR) (fetch_result : Except Hash FetchedFullBlock) : HRes :=
  match fetch_result with
  | .error hash =>
      ⟨{ s with fetch_set := s.fetch_set.filter (· ≠ hash) }, [], .error (.net_fetch hash)⟩
  | .ok fetch =>
      if fetch.height < s.state.stage.height then ⟨s, [], .error .debug_old⟩
      else
        ⟨{ s with cabinet := s.cabinet.insert_full_block fetch },
         [.save_full_block fetch], .ok ()⟩

/-- Every `transmit` in the action list is preceded by a `save_wal`
(the flag records whether a `save_wal` has been seen already). -/
def transmits_after_save : Bool → List Action → Bool
  | _, [] => true
  | _, .save_wal _ :: rest => transmits_after_save true rest
  | seen, .transmit _ _ :: rest => seen && transmits_after_save seen rest
  | seen, _ :: rest => transmits_after_save seen rest

/-- Every `broadcast` in the action list occurs before any `save_wal`. -/
def broadcasts_before_save : Bool → List Action → Bool
  | _, [] => true
  | _, .save_wal _ :: rest => broadcasts_before_save true rest
  | seen, .broadcast _ :: rest => !seen && broadcasts_before_save seen rest
  | seen, _ :: rest => broadcasts_before_save seen rest

/-- Every outbound send (`transmit` or `broadcast`) in the action list is
preceded by a `save_wal`: the reading of the claim that covers broadcast QCs
as well. -/
def outbound_after_save : Bool → List Action → Bool
  | _, [] => true
  | _, .save_wal _ :: rest => outbound_after_save true rest
  | seen, .transmit _ _ :: rest => seen && outbound_after_save seen rest
  | seen, .broadcast _ :: rest => seen && outbound_after_save seen rest
  | seen, _ :: rest => outbound_after_save seen rest

/-- Whether the action list contains a `save_wal`. -/
def has_save_wal (acts : List Action) : Bool :=
  acts.any (fun a => match a with | .save_wal _ => true | _ => false)

/-- Whether the action list contains a `broadcast`. -/
def has_broadcast (acts : List Action) : Bool :=
  acts.any (fun a => match a with | .broadcast _ => true | _ => false)

end Smr

section Examples

/-- A concrete all-accepting authority over four validators of weight one. -/
def exAuth : Smr.AuthManage where
  address := 0
  my_weight := 1
  current_auth := ⟨4⟩
  verify_signed_proposal := fun _ => true
  verify_signed_pre_vote := fun _ => true
  verify_signed_pre_commit := fun _ => true
  verify_signed_choke := fun _ => true
  verify_pre_vote_qc := fun _ => true
  verify_pre_commit_qc := fun _ => true
  verify_choke_qc := fun _ => true
  verify_proof := true
  can_i_vote := true
  get_leader := fun _ _ => 9

/-- A concrete time configuration (interval 3000ms, ratios 15/10/7/10). -/
def exTime : Smr.TimeConfig := ⟨3000, 15, 10, 7, 10⟩

/-- A concrete block at height 1. -/
def exBlock : Smr.Block := ⟨1, 0, [0], [7]⟩

/-- A concrete proposal for `exBlock` by validator 5. -/
def exSignedProposal : Smr.SignedProposal := ⟨⟨1, 0, exBlock, [7], none, 5⟩⟩

/-- A pre-vote for `exBlock` at (1, 0) by the given voter. -/
def exPreVote (voter : Nat) : Smr.SignedPreVote := ⟨⟨1, 0, [7]⟩, voter, 1⟩

/-- A pre-commit for `exBlock` at (1, 0) by the given voter. -/
def exPreCommit (voter : Nat) : Smr.SignedPreCommit := ⟨⟨1, 0, [7]⟩, voter, 1⟩

/-- A choke at (1, 0) by the given voter. -/
def exChoke (voter : Nat) : Smr.SignedChoke := ⟨⟨1, 0⟩, .PreVoteQC ⟨⟨1, 0, [7]⟩⟩, voter, 1⟩

/-- A driver at stage (1, 0, PreVote) holding the proposal, two pre-votes and
the fetched full block for `exBlock`. -/
def exSmr : Smr.SMR where
  state := ⟨⟨1, 0, .PreVote⟩, none, none, none⟩
  prepare := ⟨[0], 0⟩
  cabinet := ⟨[(1, 0, .SignedPreVote (exPreVote 1)), (1, 0, .SignedPreVote (exPreVote 2)),
               (1, 0, .SignedProposal exSignedProposal)], [⟨1, [7], [9]⟩]⟩
  auth := exAuth
  time_config := exTime
  elapsed_ms := 0
  fetch_set := []
  adapter_check_block := fun _ => true

/-- A driver at stage (1, 0, PreVote) with a PreVoteQC for hash [7] buffered
in the Cabinet and no full block yet: the fetch for [7] is outstanding. -/
def exSmrFetch : Smr.SMR :=
  { exSmr with cabinet := ⟨[(1, 0, .PreVoteQC ⟨⟨1, 0, [7]⟩⟩)], []⟩ }

/-- A driver at stage (1, 0, PreVote) holding two chokes at (1, 0). -/
def exSmrChoke : Smr.SMR :=
  { exSmr with
    cabinet := ⟨[(1, 0, .SignedChoke (exChoke 1)), (1, 0, .SignedChoke (exChoke 2))], []⟩ }

end Examples

/-- Claim C9: when `handle_prevote` successfully processes a state-sourced
prevote QC with round r and a non-empty hash at the machine's current height
while the step is at most Prevote, the round afterwards is the minimum of
the previous round and r. -/
theorem claim_C9_prevote_round_min (s s' : OldSmr.StateMachine) (hash : Hash) (r : Nat)
    (evs : List OldSmr.SMREvent)
    (hstep : OldSmr.Step.ltb .Prevote s.step = false)
    (hhash : hash.isEmpty = false)
    (hok : s.handle_prevote hash (some r) .State s.height = .ok (s', evs)) :
    s'.round = min s.round r := by
  simp only [OldSmr.StateMachine.handle_prevote, ne_eq, not_true_eq_false, if_false,
    hstep, Bool.false_eq_true, hhash, reduceCtorEq, ite_false] at hok
  split at hok
  · exact absurd hok (by simp)
  · simp only [Except.ok.injEq, Prod.mk.injEq] at hok
    obtain ⟨hs, -⟩ := hok
    rw [← hs]
    simp only [OldSmr.StateMachine.goto_step]
    have hupd : ∀ (t : OldSmr.StateMachine) (hh : Hash) (rr : Nat),
        (t.update_polc hh rr).round = t.round := by
      intro t hh rr
      simp only [OldSmr.StateMachine.update_polc, OldSmr.StateMachine.set_proposal,
        OldSmr.StateMachine.remove_polc]
      split <;> rfl
    have h1 : (match s.lock with
        | some lock => if r > lock.round then s.update_polc hash r else s
        | none => s.update_polc hash r).round = s.round := by
      rcases s.lock with - | lock
      · exact hupd s hash r
      · by_cases hx : r > lock.round <;> simp [hx, hupd]
    split
    · simp only
      omega
    · omega

/-- Claim C9 (witness): the theorem applied at a machine with round 3 holding
a lock at round 1, processing a prevote QC at round 2: the round drops to 2. -/
theorem claim_C9_witness :
    OldSmr.Step.ltb .Prevote (OldSmr.Step.Prevote) = false ∧
    ([2] : Hash).isEmpty = false ∧
    (OldSmr.StateMachine.handle_prevote ⟨1, 3, .Prevote, [1], some ⟨1, [1]⟩⟩ [2]
        (some 2) .State 1 =
      .ok (⟨1, 2, .Precommit, [2], some ⟨2, [2]⟩⟩,
           [.PrecommitVote 1 2 [2] (some 2)])) ∧
    (⟨1, 2, .Precommit, [2], some ⟨2, [2]⟩⟩ : OldSmr.StateMachine).round = min 3 2 :=
  ⟨rfl, rfl, rfl,
   claim_C9_prevote_round_min ⟨1, 3, .Prevote, [1], some ⟨1, [1]⟩⟩
     ⟨1, 2, .Precommit, [2], some ⟨2, [2]⟩⟩ [2] 2
     [.PrecommitVote 1 2 [2] (some 2)] rfl rfl rfl⟩

/-- Claim C2 (counterexample): from a machine at height 1, round 5, step
Precommit, locked on hash [1] at round 5, a state-sourced PrecommitQC for
the same hash at round 3 is accepted and lowers the lock round from 5 to 3
within the same height (check_polc overwrites the lock round with the QC
round): the lock round is not non-decreasing. -/
theorem claim_C2_counterexample :
    OldSmr.StateMachine.handle_trigger ⟨1, 5, .Precommit, [1], some ⟨5, [1]⟩⟩
        (.PrecommitQC [1] (some 3) .State 1) =
      .ok (⟨1, 3, .Commit, [1], some ⟨3, [1]⟩⟩, [.Commit [1]]) ∧
    (3 : Nat) < 5 :=
  ⟨rfl, by decide⟩

/-- Claim C2 (amended): within a single height (post-height equals
pre-height), across the consensus triggers, a held lock either stays
unchanged, or is replaced by a lock with a strictly higher round (the
prevote PoLC update), or is cleared — only by a proposal carrying a lock
round strictly above the held one (the unlock rule) — or, the amendment the
counterexample forces: in the precommit commit path the lock keeps its hash
but its round is overwritten with the PreCommitQC round, which may be
lower. -/
theorem claim_C2_amended (s s' : OldSmr.StateMachine) (t : OldSmr.SMTrigger)
    (evs : List OldSmr.SMREvent) (l : OldSmr.Lock)
    (hok : s.handle_trigger t = .ok (s', evs))
    (hsame : s'.height = s.height)
    (hlock : s.lock = some l) :
    s'.lock = some l ∨
    (∃ l' : OldSmr.Lock, s'.lock = some l' ∧ l.round < l'.round) ∨
    (s'.lock = none ∧
      ∃ hs lr src ht, t = .Proposal hs (some lr) src ht ∧ l.round < lr) ∨
    (∃ hs r src ht, t = .PrecommitQC hs (some r) src ht ∧ s'.lock = some ⟨r, l.hash⟩) := by
  cases t with
  | NewHeight status src =>
      simp only [OldSmr.StateMachine.handle_trigger,
        OldSmr.StateMachine.handle_new_height] at hok
      split at hok
      · exact absurd hok (by simp)
      · split at hok
        · exact absurd hok (by simp)
        · split at hok
          · exact absurd hok (by simp)
          · simp only [Except.ok.injEq, Prod.mk.injEq] at hok
            obtain ⟨hs1, -⟩ := hok
            rw [← hs1] at hsame
            simp only [OldSmr.StateMachine.goto_new_height,
              OldSmr.StateMachine.goto_step] at hsame
            omega
  | Proposal hash lr src ht =>
      simp only [OldSmr.StateMachine.handle_trigger,
        OldSmr.StateMachine.handle_proposal, hlock] at hok
      split at hok
      · obtain ⟨hs1, -⟩ : s = s' ∧ [] = evs := by
          simpa using hok
        exact Or.inl (hs1 ▸ hlock)
      · split at hok
        · obtain ⟨hs1, -⟩ : s = s' ∧ [] = evs := by simpa using hok
          exact Or.inl (hs1 ▸ hlock)
        · split at hok
          · -- timer-sourced proposal: only the step changes
            obtain ⟨hs1, -⟩ : s.goto_step .Prevote = s' ∧ _ = evs := by simpa using hok
            refine Or.inl ?_
            rw [← hs1]
            simpa [OldSmr.StateMachine.goto_step] using hlock
          · split at hok
            · exact absurd hok (by simp)
            · split at hok
              · exact absurd hok (by simp)
              · cases lr with
                | none =>
                    obtain ⟨hs1, -⟩ : s.goto_step .Prevote = s' ∧ _ = evs := by
                      simpa using hok
                    refine Or.inl ?_
                    rw [← hs1]
                    simpa [OldSmr.StateMachine.goto_step] using hlock
                | some lr₀ =>
                    dsimp only at hok
                    split at hok
                    · exact absurd hok (by simp)
                    · rename_i s₁ heq
                      obtain ⟨hs1, -⟩ : s₁.goto_step .Prevote = s' ∧ _ = evs := by
                        simpa using hok
                      split at heq
                      · -- lr₀ > l.round: unlock
                        obtain hs2 : s.remove_polc.set_proposal hash = s₁ := by
                          simpa using heq
                        refine Or.inr (Or.inr (Or.inl ⟨?_, hash, lr₀, src, ht, rfl,
                          by omega⟩))
                        rw [← hs1, ← hs2]
                        simp [OldSmr.StateMachine.goto_step,
                          OldSmr.StateMachine.set_proposal, OldSmr.StateMachine.remove_polc]
                      · split at heq
                        · exact absurd heq (by simp)
                        · obtain hs2 : s = s₁ := by simpa using heq
                          refine Or.inl ?_
                          rw [← hs1, ← hs2]
                          simpa [OldSmr.StateMachine.goto_step] using hlock
  | PrevoteQC hash r src ht =>
      simp only [OldSmr.StateMachine.handle_trigger,
        OldSmr.StateMachine.handle_prevote, hlock] at hok
      cases r with
      | none => exact absurd hok (by simp)
      | some vr =>
          dsimp only at hok
          split at hok
          · obtain ⟨hs1, -⟩ : s = s' ∧ [] = evs := by simpa using hok
            exact Or.inl (hs1 ▸ hlock)
          · split at hok
            · obtain ⟨hs1, -⟩ : s = s' ∧ [] = evs := by simpa using hok
              exact Or.inl (hs1 ▸ hlock)
            · split at hok
              · obtain ⟨hs1, -⟩ : s.goto_step .Precommit = s' ∧ _ = evs := by
                  simpa using hok
                refine Or.inl ?_
                rw [← hs1]
                simpa [OldSmr.StateMachine.goto_step] using hlock
              · split at hok
                · exact absurd hok (by simp)
                · split at hok
                  · exact absurd hok (by simp)
                  · rename_i hemp _ _ _
                    obtain ⟨hs1, -⟩ :
                        ((if (if vr > l.round then s.update_polc hash vr else s).round > vr
                          then { (if vr > l.round then s.update_polc hash vr else s) with
                                 round := vr }
                          else (if vr > l.round then s.update_polc hash vr else s)).goto_step
                            .Precommit = s') ∧ _ = evs := by
                      simpa using hok
                    have hlk :
                        ∀ (t : OldSmr.StateMachine) (c : Prop) [Decidable c],
                          ((if c then { t with round := vr } else t)).lock = t.lock := by
                      intro t c _
                      split <;> rfl
                    by_cases hgt : vr > l.round
                    · refine Or.inr (Or.inl ⟨⟨vr, hash⟩, ?_, hgt⟩)
                      rw [← hs1]
                      have hne : List.isEmpty hash = false := by
                        simpa using hemp
                      simp only [OldSmr.StateMachine.goto_step, hlk, hgt,
                        OldSmr.StateMachine.update_polc, OldSmr.StateMachine.set_proposal,
                        hne, if_true, Bool.false_eq_true, if_false]
                      split <;> rfl
                    · refine Or.inl ?_
                      rw [← hs1]
                      simpa [OldSmr.StateMachine.goto_step, hlk, hgt] using hlock
  | PrecommitQC hash r src ht =>
      simp only [OldSmr.StateMachine.handle_trigger,
        OldSmr.StateMachine.handle_precommit, OldSmr.StateMachine.check_polc, hlock] at hok
      cases r with
      | none => exact absurd hok (by simp)
      | some pr =>
          dsimp only at hok
          split at hok
          · obtain ⟨hs1, -⟩ : s = s' ∧ [] = evs := by simpa using hok
            exact Or.inl (hs1 ▸ hlock)
          · split at hok
            · obtain ⟨hs1, -⟩ : s = s' ∧ [] = evs := by simpa using hok
              exact Or.inl (hs1 ▸ hlock)
            · split at hok
              · obtain ⟨hs1, -⟩ : s.goto_next_round = s' ∧ _ = evs := by
                  simpa using hok
                refine Or.inl ?_
                rw [← hs1]
                simpa [OldSmr.StateMachine.goto_next_round,
                  OldSmr.StateMachine.goto_step] using hlock
              · split at hok
                · exact absurd hok (by simp)
                · split at hok
                  · exact absurd hok (by simp)
                  · split at hok
                    · exact absurd hok (by simp)
                    · rename_i s₁ heq
                      obtain ⟨hs1, -⟩ : s₁.goto_step .Commit = s' ∧ _ = evs := by
                        simpa using hok
                      split at heq
                      · exact absurd heq (by simp)
                      · obtain hs2 :
                            ({ s with lock := some ⟨pr, l.hash⟩, round := pr } :
                              OldSmr.StateMachine) = s₁ := by
                          simpa using heq
                        refine Or.inr (Or.inr (Or.inr ⟨hash, pr, src, ht, rfl, ?_⟩))
                        rw [← hs1, ← hs2]
                        simp [OldSmr.StateMachine.goto_step]

/-- Claim C2 (witness): the amended theorem applied to the prevote PoLC
update at a concrete machine: the lock at round 1 is replaced by a lock at
the strictly higher round 2. -/
theorem claim_C2_witness :
    OldSmr.StateMachine.handle_trigger ⟨1, 3, .Prevote, [1], some ⟨1, [1]⟩⟩
        (.PrevoteQC [2] (some 2) .State 1) =
      .ok (⟨1, 2, .Precommit, [2], some ⟨2, [2]⟩⟩,
           [.PrecommitVote 1 2 [2] (some 2)]) ∧
    ((⟨1, 2, .Precommit, [2], some ⟨2, [2]⟩⟩ : OldSmr.StateMachine).lock =
        some ⟨1, [1]⟩ ∨
      (∃ l' : OldSmr.Lock,
        (⟨1, 2, .Precommit, [2], some ⟨2, [2]⟩⟩ : OldSmr.StateMachine).lock = some l' ∧
          (⟨1, [1]⟩ : OldSmr.Lock).round < l'.round) ∨
      ((⟨1, 2, .Precommit, [2], some ⟨2, [2]⟩⟩ : OldSmr.StateMachine).lock = none ∧
        ∃ hs lr src ht,
          (OldSmr.SMTrigger.PrevoteQC [2] (some 2) .State 1) =
            .Proposal hs (some lr) src ht ∧ (⟨1, [1]⟩ : OldSmr.Lock).round < lr) ∨
      (∃ hs r src ht,
        (OldSmr.SMTrigger.PrevoteQC [2] (some 2) .State 1) =
          .PrecommitQC hs (some r) src ht ∧
          (⟨1, 2, .Precommit, [2], some ⟨2, [2]⟩⟩ : OldSmr.StateMachine).lock =
            some ⟨r, (⟨1, [1]⟩ : OldSmr.Lock).hash⟩)) :=
  ⟨rfl,
   claim_C2_amended ⟨1, 3, .Prevote, [1], some ⟨1, [1]⟩⟩
     ⟨1, 2, .Precommit, [2], some ⟨2, [2]⟩⟩ (.PrevoteQC [2] (some 2) .State 1)
     [.PrecommitVote 1 2 [2] (some 2)] ⟨1, [1]⟩ rfl rfl rfl⟩

/-- Claim C10 (counterexample): `handle_prevote` extracts the trigger round
before the height check, so a round-less prevote trigger whose height (4)
differs from the machine's (5) returns an error, not Ok. -/
theorem claim_C10_counterexample :
    OldSmr.StateMachine.handle_prevote ⟨5, 0, .Propose, [], none⟩ [1] none .State 4 =
      .error .PrevoteErr ∧
    (4 : Nat) ≠ (⟨5, 0, .Propose, [], none⟩ : OldSmr.StateMachine).height :=
  ⟨rfl, by decide⟩

/-- Claim C10 (amended): `handle_proposal` unconditionally, and
`handle_prevote` / `handle_precommit` provided the trigger carries a round
(the round is unwrapped before the height and step checks), return Ok,
throw no event, and leave the machine unchanged whenever the trigger's
height differs from the machine's or the step is strictly past the step the
trigger targets. -/
theorem claim_C10_amended :
    (∀ (s : OldSmr.StateMachine) (hash : Hash) (lr : Option Nat)
        (src : OldSmr.TriggerSource) (h : Nat),
      s.height ≠ h ∨ OldSmr.Step.ltb .Propose s.step = true →
      s.handle_proposal hash lr src h = .ok (s, [])) ∧
    (∀ (s : OldSmr.StateMachine) (hash : Hash) (r : Nat)
        (src : OldSmr.TriggerSource) (h : Nat),
      s.height ≠ h ∨ OldSmr.Step.ltb .Prevote s.step = true →
      s.handle_prevote hash (some r) src h = .ok (s, [])) ∧
    (∀ (s : OldSmr.StateMachine) (hash : Hash) (r : Nat)
        (src : OldSmr.TriggerSource) (h : Nat),
      s.height ≠ h ∨ OldSmr.Step.ltb .Precommit s.step = true →
      s.handle_precommit hash (some r) src h = .ok (s, [])) := by
  refine ⟨?_, ?_, ?_⟩
  · intro s hash lr src h hcond
    simp only [OldSmr.StateMachine.handle_proposal]
    by_cases hh : s.height ≠ h
    · rw [if_pos hh]
    · rw [if_neg hh, if_pos (hcond.resolve_left hh)]
  · intro s hash r src h hcond
    simp only [OldSmr.StateMachine.handle_prevote]
    by_cases hh : s.height ≠ h
    · rw [if_pos hh]
    · rw [if_neg hh, if_pos (hcond.resolve_left hh)]
  · intro s hash r src h hcond
    simp only [OldSmr.StateMachine.handle_precommit]
    by_cases hh : s.height ≠ h
    · rw [if_pos hh]
    · rw [if_neg hh, if_pos (hcond.resolve_left hh)]

/-- Claim C10 (witness): the three amended conjuncts at concrete machines:
a proposal for a different height, a prevote while in Commit step, and a
precommit for a different height, each a no-op returning Ok. -/
theorem claim_C10_witness :
    OldSmr.StateMachine.handle_proposal ⟨5, 0, .Propose, [], none⟩ [1] none .State 4 =
      .ok (⟨5, 0, .Propose, [], none⟩, []) ∧
    OldSmr.StateMachine.handle_prevote ⟨5, 0, .Commit, [], none⟩ [1] (some 0) .State 5 =
      .ok (⟨5, 0, .Commit, [], none⟩, []) ∧
    OldSmr.StateMachine.handle_precommit ⟨5, 0, .Commit, [], none⟩ [1] (some 0) .State 4 =
      .ok (⟨5, 0, .Commit, [], none⟩, []) :=
  ⟨claim_C10_amended.1 _ _ _ _ _ (Or.inl (by decide)),
   claim_C10_amended.2.1 _ _ _ _ _ (Or.inr (by decide)),
   claim_C10_amended.2.2 _ _ _ _ _ (Or.inl (by decide))⟩

/-- Claim C5 (code_bug evaluation): the Commit arm of
`EventAgent::compute_timeout` computes `elapsed.checked_sub(interval)`, not
the claimed `max(0, interval − elapsed)`: with interval 100ms, at 30ms
elapsed it yields no throttle at all (the claim demands 70ms), and at 150ms
elapsed it yields a 50ms throttle (the claim demands 0ms). -/
theorem claim_C5_commit_timeout_swapped :
    Smr.compute_timeout ⟨100, 15, 10, 7, 10⟩ ⟨1, 0, .Commit⟩ 30 = none ∧
    Smr.compute_timeout ⟨100, 15, 10, 7, 10⟩ ⟨1, 0, .Commit⟩ 150 = some 50 :=
  ⟨rfl, rfl⟩

/-- Claim C7 (code_bug evaluation): a fetch result below the current height
is dropped with a debug_old error leaving the Cabinet untouched and writing
nothing; a current-height fetch result is stored and saved, but even though
a PreVoteQC for the fetched hash is already buffered in the Cabinet, the
driver state is left untouched: the deferred step transition (a Todo in the
source) is not completed. -/
theorem claim_C7_fetch_eval :
    (exSmrFetch.handle_fetch (.ok ⟨0, [7], [9]⟩)).res = .error .debug_old ∧
    (exSmrFetch.handle_fetch (.ok ⟨0, [7], [9]⟩)).smr.cabinet = exSmrFetch.cabinet ∧
    (exSmrFetch.handle_fetch (.ok ⟨0, [7], [9]⟩)).acts = [] ∧
    (exSmrFetch.handle_fetch (.ok ⟨1, [7], [9]⟩)).res = .ok () ∧
    (exSmrFetch.handle_fetch (.ok ⟨1, [7], [9]⟩)).smr.cabinet =
      exSmrFetch.cabinet.insert_full_block ⟨1, [7], [9]⟩ ∧
    (exSmrFetch.handle_fetch (.ok ⟨1, [7], [9]⟩)).acts = [.save_full_block ⟨1, [7], [9]⟩] ∧
    (exSmrFetch.handle_fetch (.ok ⟨1, [7], [9]⟩)).smr.state = exSmrFetch.state ∧
    (1, 0, Smr.Capsule.PreVoteQC ⟨⟨1, 0, [7]⟩⟩) ∈ exSmrFetch.cabinet.msgs ∧
    exSmrFetch.state.stage = ⟨1, 0, .PreVote⟩ :=
  ⟨rfl, rfl, rfl, rfl, rfl, rfl, rfl, by decide, rfl⟩

/-- Claim C8 (code_bug evaluation): `request_full_block` never records the
hash in `fetch_set`, so a repeated call with the same block spawns a second
fetch task, and `fetch_set` is unchanged by the first call. -/
theorem claim_C8_not_idempotent :
    (Smr.request_full_block [] exBlock).2 = true ∧
    (Smr.request_full_block [] exBlock).1 = ([] : List Hash) ∧
    (Smr.request_full_block (Smr.request_full_block [] exBlock).1 exBlock).2 = true :=
  ⟨rfl, rfl, rfl⟩

/-- Claim C6 (counterexample): handling the pre-vote of voter 3 crosses the
majority; the run broadcasts the aggregated PreVoteQC as its very first
effect and persists the justifying state only afterwards (a save_wal does
occur later in the same run), so not every outbound message is preceded by
the WAL persistence of the state that justifies it. -/
theorem claim_C6_counterexample :
    Smr.outbound_after_save false (exSmr.handle_signed_pre_vote (exPreVote 3)).acts
      = false ∧
    Smr.has_save_wal (exSmr.handle_signed_pre_vote (exPreVote 3)).acts = true ∧
    Smr.has_broadcast (exSmr.handle_signed_pre_vote (exPreVote 3)).acts = true :=
  ⟨rfl, rfl, rfl⟩

/-- Claim C3: `filter_msg` admission control, read as ordered cases exactly
as listed by the claim: (1) h below the current height is debug_old;
(2) at the current height with a stale round, a SignedProposal passes and
anything else is debug_old; (3) otherwise, beyond either window it is
net_much_high; (4) otherwise, a higher height within the window buffers the
capsule in the Cabinet and is debug_high; (5) otherwise (current height,
round not stale, within the window) the capsule proceeds. -/
theorem claim_C3_filter_msg (s : Smr.SMR) (h r : Nat) (cap : Smr.Capsule) :
    (h < s.state.stage.height →
      s.filter_msg h r cap = (s, .error .debug_old)) ∧
    (h = s.state.stage.height → r < s.state.stage.round →
      ((∃ sp, cap = .SignedProposal sp) → s.filter_msg h r cap = (s, .ok ())) ∧
      ((∀ sp, cap ≠ .SignedProposal sp) →
        s.filter_msg h r cap = (s, .error .debug_old))) ∧
    (s.state.stage.height ≤ h → ¬(h = s.state.stage.height ∧ r < s.state.stage.round) →
      (h > s.state.stage.height + Smr.HEIGHT_WINDOW ∨
        r > s.state.stage.round + Smr.ROUND_WINDOW) →
      s.filter_msg h r cap = (s, .error .net_much_high)) ∧
    (s.state.stage.height < h → h ≤ s.state.stage.height + Smr.HEIGHT_WINDOW →
      r ≤ s.state.stage.round + Smr.ROUND_WINDOW →
      s.filter_msg h r cap =
        ({ s with cabinet := (s.cabinet.insert h r cap).1 }, .error .debug_high)) ∧
    (h = s.state.stage.height → s.state.stage.round ≤ r →
      r ≤ s.state.stage.round + Smr.ROUND_WINDOW →
      s.filter_msg h r cap = (s, .ok ())) := by
  refine ⟨?_, ?_, ?_, ?_, ?_⟩
  · intro h1
    simp only [Smr.SMR.filter_msg]
    rw [if_pos h1]
  · intro h1 h2
    constructor
    · rintro ⟨sp, rfl⟩
      simp only [Smr.SMR.filter_msg]
      rw [if_neg (by omega), if_pos ⟨h1, h2⟩]
    · intro hne
      cases cap with
      | SignedProposal sp => exact absurd rfl (hne sp)
      | _ =>
          simp only [Smr.SMR.filter_msg]
          rw [if_neg (by omega), if_pos ⟨h1, h2⟩]
  · intro h1 h2 h3
    simp only [Smr.SMR.filter_msg]
    rw [if_neg (by omega), if_neg h2, if_pos h3]
  · intro h1 h2 h3
    simp only [Smr.SMR.filter_msg]
    rw [if_neg (by omega), if_neg (by omega), if_neg (by omega), if_pos h1]
  · intro h1 h2 h3
    simp only [Smr.SMR.filter_msg]
    rw [if_neg (by omega), if_neg (by omega), if_neg (by omega), if_neg (by omega)]

/-- Claim C3 (witness): the clauses of the theorem applied at stage (1, 0):
a height-0 QC is debug_old; a height-3 QC is buffered and debug_high. -/
theorem claim_C3_witness :
    (0 < exSmr.state.stage.height ∧
      exSmr.filter_msg 0 0 (.PreVoteQC ⟨⟨0, 0, [7]⟩⟩) = (exSmr, .error .debug_old)) ∧
    (exSmr.state.stage.height < 3 ∧ 3 ≤ exSmr.state.stage.height + Smr.HEIGHT_WINDOW ∧
      0 ≤ exSmr.state.stage.round + Smr.ROUND_WINDOW ∧
      exSmr.filter_msg 3 0 (.PreVoteQC ⟨⟨3, 0, [7]⟩⟩) =
        ({ exSmr with
           cabinet := (exSmr.cabinet.insert 3 0 (.PreVoteQC ⟨⟨3, 0, [7]⟩⟩)).1 },
         .error .debug_high)) :=
  ⟨⟨by decide, (claim_C3_filter_msg exSmr 0 0 (.PreVoteQC ⟨⟨0, 0, [7]⟩⟩)).1 (by decide)⟩,
   ⟨by decide, by decide, by decide,
    (claim_C3_filter_msg exSmr 3 0
      (.PreVoteQC ⟨⟨3, 0, [7]⟩⟩)).2.2.2.1 (by decide) (by decide) (by decide)⟩⟩

/-- In every run of `handle_pre_vote_qc`, a transmit only happens after the
WAL save of the transition that justifies it. -/
theorem hpvqc_transmits_after_save (s : Smr.SMR) (qc : Smr.PreVoteQC) :
    Smr.transmits_after_save false (s.handle_pre_vote_qc qc).acts = true := by
  simp only [Smr.SMR.handle_pre_vote_qc, Smr.SMR.set_timeout_acts]
  repeat' split
  all_goals simp [Smr.transmits_after_save]

/-- In every run of `handle_signed_proposal`, a transmit only happens after
the WAL save of the transition that justifies it. -/
theorem hsp_transmits_after_save (s : Smr.SMR) (sp : Smr.SignedProposal) :
    Smr.transmits_after_save false (s.handle_signed_proposal sp).acts = true := by
  simp only [Smr.SMR.handle_signed_proposal, Smr.SMR.set_timeout_acts]
  repeat' split
  all_goals simp [Smr.transmits_after_save]

/-- In every run of `handle_signed_pre_vote`, a transmit only happens after
a WAL save (the feedback into `handle_pre_vote_qc` preserves the order). -/
theorem hspv_transmits_after_save (s : Smr.SMR) (sv : Smr.SignedPreVote) :
    Smr.transmits_after_save false (s.handle_signed_pre_vote sv).acts = true := by
  simp only [Smr.SMR.handle_signed_pre_vote]
  repeat' split
  all_goals try rfl
  all_goals simp only [Smr.transmits_after_save]
  all_goals exact hpvqc_transmits_after_save _ _

/-- `handle_pre_vote_qc` emits no broadcast at all. -/
theorem hpvqc_no_broadcast (s : Smr.SMR) (qc : Smr.PreVoteQC) (b : Bool) :
    Smr.broadcasts_before_save b (s.handle_pre_vote_qc qc).acts = true := by
  simp only [Smr.SMR.handle_pre_vote_qc, Smr.SMR.set_timeout_acts]
  repeat' split
  all_goals simp [Smr.broadcasts_before_save]

/-- `handle_pre_commit_qc` emits no broadcast at all. -/
theorem hpcqc_no_broadcast (s : Smr.SMR) (qc : Smr.PreCommitQC) (b : Bool) :
    Smr.broadcasts_before_save b (s.handle_pre_commit_qc qc).acts = true := by
  simp only [Smr.SMR.handle_pre_commit_qc]
  repeat' split
  all_goals simp [Smr.broadcasts_before_save]

/-- In every run of `handle_signed_pre_vote`, the aggregated-QC broadcast, if
any, happens before any WAL save of the run. -/
theorem hspv_broadcasts_before_save (s : Smr.SMR) (sv : Smr.SignedPreVote) :
    Smr.broadcasts_before_save false (s.handle_signed_pre_vote sv).acts = true := by
  simp only [Smr.SMR.handle_signed_pre_vote]
  repeat' split
  all_goals try rfl
  all_goals simp only [Smr.broadcasts_before_save, Bool.not_false, Bool.true_and]
  all_goals exact hpvqc_no_broadcast _ _ _

/-- In every run of `handle_signed_pre_commit`, the aggregated-QC broadcast,
if any, happens before any WAL save of the run. -/
theorem hspc_broadcasts_before_save (s : Smr.SMR) (sv : Smr.SignedPreCommit) :
    Smr.broadcasts_before_save false (s.handle_signed_pre_commit sv).acts = true := by
  simp only [Smr.SMR.handle_signed_pre_commit]
  repeat' split
  all_goals try rfl
  all_goals simp only [Smr.broadcasts_before_save, Bool.not_false, Bool.true_and]
  all_goals exact hpcqc_no_broadcast _ _ _

/-- Claim C6 (amended): the PreVote transmitted after handling a
SignedProposal and the PreCommit transmitted after handling a PreVoteQC
(directly or through the aggregation feedback) are sent only after the
justifying StateInfo has been persisted by save_wal; an aggregated QC,
however, is broadcast before the post-transition state is persisted
(broadcast first, then fed back through the local handler which persists). -/
theorem claim_C6_amended :
    (∀ (s : Smr.SMR) (sp : Smr.SignedProposal),
      Smr.transmits_after_save false (s.handle_signed_proposal sp).acts = true) ∧
    (∀ (s : Smr.SMR) (qc : Smr.PreVoteQC),
      Smr.transmits_after_save false (s.handle_pre_vote_qc qc).acts = true) ∧
    (∀ (s : Smr.SMR) (sv : Smr.SignedPreVote),
      Smr.transmits_after_save false (s.handle_signed_pre_vote sv).acts = true) ∧
    (∀ (s : Smr.SMR) (sv : Smr.SignedPreVote),
      Smr.broadcasts_before_save false (s.handle_signed_pre_vote sv).acts = true) ∧
    (∀ (s : Smr.SMR) (sv : Smr.SignedPreCommit),
      Smr.broadcasts_before_save false (s.handle_signed_pre_commit sv).acts = true) :=
  ⟨hsp_transmits_after_save, hpvqc_transmits_after_save, hspv_transmits_after_save,
   hspv_broadcasts_before_save, hspc_broadcasts_before_save⟩

/-- Claim C4 (amended): when inserting a verified SignedPreVote or
SignedPreCommit makes the cumulative weight cross the 2/3 majority, the
stored votes are aggregated into a QC which is broadcast and then fed back
through the same local handler used for externally received QCs
(`handle_pre_vote_qc` / `handle_pre_commit_qc`); a majority-crossing
SignedChoke instead feeds the aggregated ChokeQC back through
`handle_choke_qc` without broadcasting it; a SignedChoke below the majority
has the QC carried in its UpdateFrom field processed by the corresponding
handler. -/
theorem claim_C4_amended :
    (∀ (s s₁ : Smr.SMR) (sv : Smr.SignedPreVote) (cab : Smr.Cabinet)
        (sum_w : Smr.CumWeight) (hash : Hash) (votes : List Smr.SignedPreVote)
        (qc : Smr.PreVoteQC),
      s.filter_msg sv.vote.height sv.vote.round (.SignedPreVote sv) = (s₁, .ok ()) →
      s₁.auth.verify_signed_pre_vote sv = true →
      s₁.cabinet.insert sv.vote.height sv.vote.round (.SignedPreVote sv) =
        (cab, some sum_w) →
      s₁.auth.current_auth.beyond_majority sum_w.cum_weight = true →
      sum_w.block_hash = some hash →
      cab.get_signed_pre_votes_by_hash sv.vote.height sum_w.round hash = some votes →
      Smr.aggregate_pre_votes votes = .ok qc →
      s.handle_signed_pre_vote sv =
        ⟨(({ s₁ with cabinet := cab } : Smr.SMR).handle_pre_vote_qc qc).smr,
         .broadcast (.PreVoteQC qc) ::
           (({ s₁ with cabinet := cab } : Smr.SMR).handle_pre_vote_qc qc).acts,
         (({ s₁ with cabinet := cab } : Smr.SMR).handle_pre_vote_qc qc).res⟩) ∧
    (∀ (s s₁ : Smr.SMR) (sv : Smr.SignedPreCommit) (cab : Smr.Cabinet)
        (sum_w : Smr.CumWeight) (hash : Hash) (votes : List Smr.SignedPreCommit)
        (qc : Smr.PreCommitQC),
      s.filter_msg sv.vote.height sv.vote.round (.SignedPreCommit sv) = (s₁, .ok ()) →
      s₁.auth.verify_signed_pre_commit sv = true →
      s₁.cabinet.insert sv.vote.height sv.vote.round (.SignedPreCommit sv) =
        (cab, some sum_w) →
      s₁.auth.current_auth.beyond_majority sum_w.cum_weight = true →
      sum_w.block_hash = some hash →
      cab.get_signed_pre_commits_by_hash sv.vote.height sum_w.round hash = some votes →
      Smr.aggregate_pre_commits votes = .ok qc →
      s.handle_signed_pre_commit sv =
        ⟨(({ s₁ with cabinet := cab } : Smr.SMR).handle_pre_commit_qc qc).smr,
         .broadcast (.PreCommitQC qc) ::
           (({ s₁ with cabinet := cab } : Smr.SMR).handle_pre_commit_qc qc).acts,
         (({ s₁ with cabinet := cab } : Smr.SMR).handle_pre_commit_qc qc).res⟩) ∧
    (∀ (s s₁ : Smr.SMR) (sc : Smr.SignedChoke) (cab : Smr.Cabinet)
        (sum_w : Smr.CumWeight) (chokes : List Smr.SignedChoke) (qc : Smr.ChokeQC),
      s.filter_msg sc.choke.height sc.choke.round (.SignedChoke sc) = (s₁, .ok ()) →
      s₁.auth.verify_signed_choke sc = true →
      s₁.cabinet.insert sc.choke.height sc.choke.round (.SignedChoke sc) =
        (cab, some sum_w) →
      s₁.auth.current_auth.beyond_majority sum_w.cum_weight = true →
      cab.get_signed_chokes sc.choke.height sum_w.round = some chokes →
      Smr.aggregate_chokes chokes = .ok qc →
      s.handle_signed_choke sc =
        ({ s₁ with cabinet := cab } : Smr.SMR).handle_choke_qc qc) ∧
    (∀ (s s₁ : Smr.SMR) (sc : Smr.SignedChoke) (cab : Smr.Cabinet)
        (sum_w : Smr.CumWeight),
      s.filter_msg sc.choke.height sc.choke.round (.SignedChoke sc) = (s₁, .ok ()) →
      s₁.auth.verify_signed_choke sc = true →
      s₁.cabinet.insert sc.choke.height sc.choke.round (.SignedChoke sc) =
        (cab, some sum_w) →
      s₁.auth.current_auth.beyond_majority sum_w.cum_weight = false →
      s.handle_signed_choke sc =
        (match sc.update_from with
         | .PreVoteQC qc => ({ s₁ with cabinet := cab } : Smr.SMR).handle_pre_vote_qc qc
         | .PreCommitQC qc => ({ s₁ with cabinet := cab } : Smr.SMR).handle_pre_commit_qc qc
         | .ChokeQC qc => ({ s₁ with cabinet := cab } : Smr.SMR).handle_choke_qc qc)) := by
  refine ⟨?_, ?_, ?_, ?_⟩
  · intro s s₁ sv cab sum_w hash votes qc hfilter hverify hinsert hbeyond hhash hvotes hagg
    simp only [Smr.SMR.handle_signed_pre_vote, hfilter, hverify, hinsert, hbeyond, hhash,
      hvotes, hagg, if_true]
  · intro s s₁ sv cab sum_w hash votes qc hfilter hverify hinsert hbeyond hhash hvotes hagg
    simp only [Smr.SMR.handle_signed_pre_commit, hfilter, hverify, hinsert, hbeyond, hhash,
      hvotes, hagg, if_true]
  · intro s s₁ sc cab sum_w chokes qc hfilter hverify hinsert hbeyond hchokes hagg
    simp only [Smr.SMR.handle_signed_choke, hfilter, hverify, hinsert, hbeyond, hchokes,
      hagg, if_true]
  · intro s s₁ sc cab sum_w hfilter hverify hinsert hbeyond
    simp only [Smr.SMR.handle_signed_choke, hfilter, hverify, hinsert, hbeyond, if_true,
      Bool.false_eq_true, if_false]

/-- Claim C4 (witness): the pre-vote conjunct applied at the concrete driver
`exSmr` and the pre-vote of voter 3, which crosses the 3-of-4 majority. -/
theorem claim_C4_witness :
    exSmr.handle_signed_pre_vote (exPreVote 3) =
      ⟨(({ exSmr with
            cabinet := (exSmr.cabinet.insert 1 0 (.SignedPreVote (exPreVote 3))).1 } :
          Smr.SMR).handle_pre_vote_qc ⟨⟨1, 0, [7]⟩⟩).smr,
       .broadcast (.PreVoteQC ⟨⟨1, 0, [7]⟩⟩) ::
         (({ exSmr with
              cabinet := (exSmr.cabinet.insert 1 0 (.SignedPreVote (exPreVote 3))).1 } :
            Smr.SMR).handle_pre_vote_qc ⟨⟨1, 0, [7]⟩⟩).acts,
       (({ exSmr with
            cabinet := (exSmr.cabinet.insert 1 0 (.SignedPreVote (exPreVote 3))).1 } :
          Smr.SMR).handle_pre_vote_qc ⟨⟨1, 0, [7]⟩⟩).res⟩ :=
  claim_C4_amended.1 exSmr exSmr (exPreVote 3)
    (exSmr.cabinet.insert 1 0 (.SignedPreVote (exPreVote 3))).1
    ⟨3, 0, some [7]⟩ [7] [exPreVote 3, exPreVote 1, exPreVote 2] ⟨⟨1, 0, [7]⟩⟩
    rfl rfl rfl rfl rfl rfl rfl

/-- Claim C4 (counterexample): handling the choke of voter 3 crosses the
majority (3 of 4 weight): the aggregated ChokeQC is fed back through the
local ChokeQC handler, but no broadcast of it ever happens — the run's
effects are exactly the WAL save and the new-round call. -/
theorem claim_C4_counterexample :
    Smr.has_broadcast (exSmrChoke.handle_signed_choke (exChoke 3)).acts = false ∧
    (exSmrChoke.handle_signed_choke (exChoke 3)).acts =
      [.save_wal ⟨⟨1, 1, .Propose⟩, none, none, none⟩, .call_new_round] ∧
    (exSmrChoke.handle_signed_choke (exChoke 3)).res = .ok () :=
  ⟨rfl, rfl, rfl⟩

